import Mathlib

/-!
Verification of the job-runner core of `run_eval_simlingo_local.py`:
config resolution, route discovery, job-queue construction, the
completion oracle (`needs_rerun`) and the retry controller (`process_job`).

Python values parsed from a result JSON file are modelled by `PyVal`;
Python runtime exceptions that the script can raise while inspecting a
parsed value are modelled by `PyErr`, and fallible operations return
`Except PyErr _`.  The subprocess/filesystem boundary is abstracted:
`launch_job` becomes an arbitrary function from a world state to an exit
status plus a new world state, and `needs_rerun`'s view of the result
file is an explicit `ResultFile` value.
-/

namespace SimlingoEval

/-- Parsed JSON data as produced by `ujson.load`: Python `None`, `bool`,
`int`, `str`, `list` and `dict` (string keys, unique after parsing).
Floats do not occur in the fields the script inspects and are omitted. -/
inductive PyVal where
  | none : PyVal
  | bool (b : Bool) : PyVal
  | int (n : Int) : PyVal
  | str (s : String) : PyVal
  | list (xs : List PyVal) : PyVal
  | dict (kvs : List (String × PyVal)) : PyVal

/-- Python exceptions relevant to `needs_rerun`'s body. -/
inductive PyErr where
  | keyError : PyErr
  | typeError : PyErr
  | attributeError : PyErr
  | indexError : PyErr
deriving DecidableEq, Repr

mutual
/-- Python `==` on parsed JSON values; `bool` coerces to `int`
(`True == 1`). Dicts are compared entrywise in order, which agrees with
Python's unordered dict equality on the key-unique dicts `ujson`
produces when their key order matches; no field the script compares ever
holds a dict. -/
def pyEq : PyVal → PyVal → Bool
  | .none, .none => true
  | .bool a, .bool b => a == b
  | .bool a, .int n => (if a then (1 : Int) else 0) == n
  | .int n, .bool b => n == (if b then (1 : Int) else 0)
  | .int a, .int b => a == b
  | .str a, .str b => a == b
  | .list as, .list bs => pyEqList as bs
  | .dict as, .dict bs => pyEqDict as bs
  | _, _ => false

/-- Elementwise Python `==` on lists. -/
def pyEqList : List PyVal → List PyVal → Bool
  | [], [] => true
  | a :: as, b :: bs => pyEq a b && pyEqList as bs
  | _, _ => false

/-- Entrywise Python `==` on dict entry lists. -/
def pyEqDict : List (String × PyVal) → List (String × PyVal) → Bool
  | [], [] => true
  | (k, v) :: as, (k2, v2) :: bs => k == k2 && pyEq v v2 && pyEqDict as bs
  | _, _ => false
end

/-- Python subscript `v[k]` for a string key: `KeyError` on a dict missing
the key, `TypeError` on any non-dict. -/
def pySubscript (v : PyVal) (k : String) : Except PyErr PyVal :=
  match v with
  | .dict kvs =>
    match kvs.lookup k with
    | some w => .ok w
    | Option.none => .error .keyError
  | _ => .error .typeError

/-- Python `v.get(k, d)`: only dicts have `.get`; anything else raises
`AttributeError`. -/
def pyGetD (v : PyVal) (k : String) (d : PyVal) : Except PyErr PyVal :=
  match v with
  | .dict kvs => .ok ((kvs.lookup k).getD d)
  | _ => .error .attributeError

/-- Python `v.get(k)` (default `None`). -/
def pyGet (v : PyVal) (k : String) : Except PyErr PyVal :=
  pyGetD v k .none

/-- Python `len(v)`: defined for lists, strings and dicts, `TypeError`
otherwise. -/
def pyLen (v : PyVal) : Except PyErr Nat :=
  match v with
  | .list xs => .ok xs.length
  | .str s => .ok s.length
  | .dict kvs => .ok kvs.length
  | _ => .error .typeError

/-- Python `v[i]` for a non-negative integer index. Indexing a dict with an
integer looks the integer up as a key; since parsed JSON dicts have string
keys this raises `KeyError`. -/
def pyIndex (v : PyVal) (i : Nat) : Except PyErr PyVal :=
  match v with
  | .list xs =>
    match xs.get? i with
    | some x => .ok x
    | Option.none => .error .indexError
  | .str s =>
    match s.data.get? i with
    | some c => .ok (.str (String.mk [c]))
    | Option.none => .error .indexError
  | .dict _ => .error .keyError
  | _ => .error .typeError

mutual
/-- Python `a < b` on parsed JSON values: numeric (`bool` coerces to
`int`), string and list comparisons are defined; any other combination
raises `TypeError`. -/
def pyLt : PyVal → PyVal → Except PyErr Bool
  | .int a, .int b => .ok (decide (a < b))
  | .int a, .bool b => .ok (decide (a < (if b then 1 else 0)))
  | .bool a, .int b => .ok (decide ((if a then (1 : Int) else 0) < b))
  | .bool a, .bool b => .ok (decide ((if a then (1 : Int) else 0) < (if b then 1 else 0)))
  | .str a, .str b => .ok (decide (a < b))
  | .list as, .list bs => pyLtList as bs
  | _, _ => .error .typeError

/-- Python list `<`: skip equal prefixes, compare the first differing
elements, a strict prefix is smaller. -/
def pyLtList : List PyVal → List PyVal → Except PyErr Bool
  | [], [] => .ok false
  | [], _ :: _ => .ok true
  | _ :: _, [] => .ok false
  | a :: as, b :: bs => if pyEq a b then pyLtList as bs else pyLt a b
end

/-- `FAIL_STATUSES` from the script: record statuses that force a rerun. -/
def FAIL_STATUSES : List String :=
  ["Failed - Agent couldn't be set up",
   "Failed",
   "Failed - Simulation crashed",
   "Failed - Agent crashed"]

/-- Python `x in FAIL_STATUSES` for the value returned by
`record.get("status")`: set membership via `==`, so only an equal string
matches and no error is possible. -/
def statusFailed (v : PyVal) : Bool :=
  match v with
  | .str s => s ∈ FAIL_STATUSES
  | _ => false

/-- The `for record in ...` loop body of `needs_rerun`: stop with `True`
at the first record whose `status` is a failure status; `record.get` on a
non-dict record raises `AttributeError`. -/
def check_records : List PyVal → Except PyErr Bool
  | [] => .ok false
  | r :: rs =>
    match pyGet r "status" with
    | .error e => .error e
    | .ok st => if statusFailed st then .ok true else check_records rs

/-- Python iteration over a value: lists yield elements, strings yield
one-character strings, dicts yield their keys; anything else raises
`TypeError`. -/
def pyIter (v : PyVal) : Except PyErr (List PyVal) :=
  match v with
  | .list xs => .ok xs
  | .str s => .ok (s.data.map (fun c => .str (String.mk [c])))
  | .dict kvs => .ok (kvs.map (fun kv => .str kv.1))
  | _ => .error .typeError

/-- The state of a job's result file as `needs_rerun` observes it:
absent, present but not valid JSON (`ujson.load` raises), or parsed. -/
inductive ResultFile where
  | missing : ResultFile
  | unparsable : ResultFile
  | parsed (v : PyVal) : ResultFile

/-- `needs_rerun` from the script: decide from the result file whether a
job still needs to run. Only `KeyError` from the two subscripts is
caught; every other exception propagates as `.error`. `.ok true` means
"needs rerun", `.ok false` means "complete, skip". -/
def needs_rerun (rf : ResultFile) : Except PyErr Bool :=
  match rf with
  | .missing => .ok true
  | .unparsable => .ok true
  | .parsed v =>
    match pySubscript v "_checkpoint" with
    | .error .keyError => .ok true
    | .error e => .error e
    | .ok checkpoint =>
      match pySubscript checkpoint "progress" with
      | .error .keyError => .ok true
      | .error e => .error e
      | .ok progress =>
        match pyLen progress with
        | .error e => .error e
        | .ok n =>
          if n < 2 then .ok true
          else
            match pyIndex progress 0 with
            | .error e => .error e
            | .ok p0 =>
              match pyIndex progress 1 with
              | .error e => .error e
              | .ok p1 =>
                match pyLt p0 p1 with
                | .error e => .error e
                | .ok true => .ok true
                | .ok false =>
                  match pyGetD checkpoint "records" (.list []) with
                  | .error e => .error e
                  | .ok recsVal =>
                    match pyIter recsVal with
                    | .error e => .error e
                    | .ok recs => check_records recs

/-- Outcome of `process_job` on one job: the returned boolean, the final
`remaining_tries` value, how many times `launch_job` was invoked, and the
successive values taken by `job["remaining_tries"]` (head = value on
entry). -/
structure JobOutcome where
  succeeded : Bool
  remaining : Int
  invocations : Nat
  trace : List Int
deriving DecidableEq, Repr

/-- `process_job` from the script, abstracted over the world: `oracle`
is `needs_rerun` as a predicate on the world state (`true` = needs
rerun), `launch` is `launch_job` (exit-code-zero flag plus the new world
state, since the subprocess rewrites the result file). The loop runs
while `remaining_tries > 0`: skip if the oracle is satisfied, otherwise
launch, decrement, and stop early when the launch exited zero and the
oracle now reports complete. -/
def process_job {σ : Type} (oracle : σ → Bool) (launch : σ → Bool × σ)
    (remaining : Int) (s : σ) : JobOutcome :=
  if h : 0 < remaining then
    if oracle s = false then
      { succeeded := true, remaining := remaining, invocations := 0, trace := [remaining] }
    else
      let res := launch s
      let r2 := remaining - 1
      if res.1 = true ∧ oracle res.2 = false then
        { succeeded := true, remaining := r2, invocations := 1, trace := [remaining, r2] }
      else
        let rest := process_job oracle launch r2 res.2
        { succeeded := rest.succeeded, remaining := rest.remaining,
          invocations := rest.invocations + 1, trace := remaining :: rest.trace }
  else
    { succeeded := false, remaining := remaining, invocations := 0, trace := [remaining] }
termination_by remaining.toNat
decreasing_by simp_wf; omega

/-- `str.zfill(width)` from Python: left-pad with `'0'` up to `width`,
keeping a leading `'+'`/`'-'` sign in front of the padding. -/
def zfill (s : String) (width : Nat) : String :=
  if width ≤ s.length then s
  else
    match s.data with
    | c :: rest =>
      if c = '+' ∨ c = '-' then
        String.mk (c :: (List.replicate (width - s.length) '0' ++ rest))
      else
        String.mk (List.replicate (width - s.length) '0' ++ s.data)
    | [] => String.mk (List.replicate (width - s.length) '0')

/-- Position of the last `'.'` in a list of characters, if any
(accumulator-passing helper). -/
def lastDotPosAux : List Char → Nat → Option Nat → Option Nat
  | [], _, acc => acc
  | c :: cs, i, acc => lastDotPosAux cs (i + 1) (if c = '.' then some i else acc)

/-- Position of the last `'.'` in a filename. -/
def lastDotPos (name : String) : Option Nat :=
  lastDotPosAux name.data 0 Option.none

/-- `pathlib.Path(name).suffix`: the final `"."`-extension, which exists
only when the last dot is neither the first nor the last character. -/
def path_suffix (name : String) : String :=
  match lastDotPos name with
  | some i =>
    if 0 < i ∧ i + 1 < name.length then String.mk (name.data.drop i) else ""
  | Option.none => ""

/-- `pathlib.Path(name).stem`: the filename with its `suffix` removed. -/
def path_stem (name : String) : String :=
  match lastDotPos name with
  | some i =>
    if 0 < i ∧ i + 1 < name.length then String.mk (name.data.take i) else name
  | Option.none => name

/-- Split a character list at every occurrence of `sep`, keeping empty
groups, as Python `str.split(sep)` does for a one-character separator
(`"a__b"` gives `["a", "", "b"]`, `""` gives `[""]`). -/
def splitChars (sep : Char) : List Char → List (List Char)
  | [] => [[]]
  | c :: rest =>
    match splitChars sep rest with
    | [] => [[]]
    | g :: gs => if c = sep then [] :: g :: gs else (c :: g) :: gs

/-- Python `s.split("_")`, as a list of strings. -/
def split_on_uscore (s : String) : List String :=
  (splitChars '_' s.data).map String.mk

/-- Python `s.lower()` restricted to ASCII, which covers every benchmark
name the comparison `cfg["benchmark"].lower() == "bench2drive"` sees. -/
def str_lower (s : String) : String :=
  String.mk (s.data.map Char.toLower)

/-- `discover_routes` from the script, over the (unordered) list of
filenames in the route directory: keep the `.xml` files, sorted. Python
sorts the `Path` values, which within one directory is lexicographic
comparison of the filename strings. -/
def discover_routes (entries : List String) : List String :=
  (entries.filter (fun n => path_suffix n == ".xml")).mergeSort (fun a b => decide (a ≤ b))

/-- A raw configuration record as found in `CONFIGS`: the six path
fields, the identity fields, and the optional numeric fields
(`None` = key absent from the dict). -/
structure RawConfig where
  agent : String
  benchmark : String
  checkpoint : String
  route_path : String
  out_root : String
  carla_root : String
  repo_root : String
  agent_file : String
  seeds : Option (List Int)
  carla_port : Option Int
  carla_tm_port : Option Int
  timeout : Option Int
  tries : Option Int

/-- A resolved configuration: every path expanded, every default filled. -/
structure Config where
  agent : String
  benchmark : String
  checkpoint : String
  route_path : String
  out_root : String
  carla_root : String
  repo_root : String
  agent_file : String
  seeds : Option (List Int)
  carla_port : Int
  carla_tm_port : Int
  timeout : Int
  tries : Int
deriving DecidableEq, Repr

/-- The required-path table of `preprocess_config`, in the insertion
order of the Python dict, over the already-expanded fields. -/
def required_paths (cfg : Config) : List (String × String) :=
  [("route_path", cfg.route_path),
   ("carla_root", cfg.carla_root),
   ("repo_root", cfg.repo_root),
   ("agent_file", cfg.agent_file),
   ("checkpoint", cfg.checkpoint)]

/-- `preprocess_config` from the script, abstracted over the filesystem:
`expand` models `expand_path` (pure string rewriting from `~` and the
working directory) and `fsExists` models `Path.exists`. Paths are
expanded, defaults filled, and the first required path that does not
exist raises `FileNotFoundError` with a message naming the field and the
path. -/
def resolve_config (expand : String → String) (cfg : RawConfig) : Config :=
  { agent := cfg.agent
    benchmark := cfg.benchmark
    checkpoint := expand cfg.checkpoint
    route_path := expand cfg.route_path
    out_root := expand cfg.out_root
    carla_root := expand cfg.carla_root
    repo_root := expand cfg.repo_root
    agent_file := expand cfg.agent_file
    seeds := cfg.seeds
    carla_port := cfg.carla_port.getD 2000
    carla_tm_port := cfg.carla_tm_port.getD 2500
    timeout := cfg.timeout.getD 600
    tries := cfg.tries.getD 1 }

def preprocess_config (expand : String → String) (fsExists : String → Bool)
    (cfg : RawConfig) : Except String Config :=
  let resolved : Config := resolve_config expand cfg
  match (required_paths resolved).find? (fun np => !fsExists np.2) with
  | some np => .error (np.1 ++ " does not exist: " ++ np.2)
  | Option.none => .ok resolved

/-- One entry of the job queue: the fields of the job dict that the
claims mention (paths are modelled as the strings the script builds). -/
structure JobDesc where
  route : String
  route_id : String
  seed : Int
  result_file : String
  log_file : String
  err_file : String
  remaining_tries : Int
deriving DecidableEq, Repr

/-- The per-route body of `build_job_queue`: the route id is the last
`"_"`-delimited token of the route filename's stem, zero-filled to
`fill_zeros`. -/
def make_job (cfg : Config) (base_dir : String) (fill_zeros : Nat)
    (route : String) : JobDesc :=
  let route_suffix := (split_on_uscore (path_stem route)).getLastD ""
  let route_id := zfill route_suffix fill_zeros
  { route := route
    route_id := route_id
    seed := 0
    result_file := base_dir ++ "/res/" ++ route_id ++ "_res.json"
    log_file := base_dir ++ "/out/" ++ route_id ++ "_out.log"
    err_file := base_dir ++ "/err/" ++ route_id ++ "_err.log"
    remaining_tries := cfg.tries }

/-- `build_job_queue` for one resolved configuration, over the directory
listing of its route directory: for each seed, for each discovered
route, one job descriptor (directory creation is a filesystem effect
with no bearing on the descriptors and is not modelled). -/
def build_job_queue (cfg : Config) (entries : List String) : List JobDesc :=
  let routes := discover_routes entries
  let fill_zeros := if str_lower cfg.benchmark == "bench2drive" then 3 else 2
  ((cfg.seeds.getD [1]).map (fun seed =>
    let base_dir := cfg.out_root ++ "/" ++ cfg.agent ++ "/" ++ cfg.benchmark
        ++ "/" ++ toString seed
    routes.map (fun route => { make_job cfg base_dir fill_zeros route with seed := seed }))).flatten

/-- A small resolved configuration for concrete instances, with the
benchmark name and retry budget as parameters. -/
def demo_config (benchmark : String) (tries : Int) : Config :=
  { agent := "simlingo", benchmark := benchmark, checkpoint := "ckpt.pt",
    route_path := "routes", out_root := "out", carla_root := "carla",
    repo_root := "repo", agent_file := "agent.py", seeds := some [1],
    carla_port := 2000, carla_tm_port := 2500, timeout := 600, tries := tries }

/-- The job descriptor that `build_job_queue` produces for
`demo_config "Bench2Drive" 1` over the single route file `route_7.xml`. -/
def demo_job : JobDesc :=
  { route := "route_7.xml", route_id := "007", seed := 1,
    result_file := "out/simlingo/Bench2Drive/1/res/007_res.json",
    log_file := "out/simlingo/Bench2Drive/1/out/007_out.log",
    err_file := "out/simlingo/Bench2Drive/1/err/007_err.log",
    remaining_tries := 1 }

/-- A small raw configuration for concrete instances, with every optional
numeric field absent. -/
def demo_raw_config : RawConfig :=
  { agent := "simlingo", benchmark := "bench2drive", checkpoint := "ckpt.pt",
    route_path := "routes", out_root := "out", carla_root := "carla",
    repo_root := "repo", agent_file := "agent.py", seeds := some [1],
    carla_port := Option.none, carla_tm_port := Option.none,
    timeout := Option.none, tries := Option.none }

/-- Unfolding `process_job` when the retry budget is spent. -/
theorem process_job_nonpos {σ : Type} (oracle : σ → Bool) (launch : σ → Bool × σ)
    (n : Int) (h : ¬ 0 < n) (s : σ) :
    process_job oracle launch n s = ⟨false, n, 0, [n]⟩ := by
  rw [process_job]; simp [h]

/-- Unfolding `process_job` when the oracle reports complete up front. -/
theorem process_job_skip {σ : Type} (oracle : σ → Bool) (launch : σ → Bool × σ)
    (n : Int) (h : 0 < n) (s : σ) (hc : oracle s = false) :
    process_job oracle launch n s = ⟨true, n, 0, [n]⟩ := by
  rw [process_job]; simp [h, hc]

/-- Unfolding `process_job` when the attempt exits zero and the oracle then
reports complete. -/
theorem process_job_done {σ : Type} (oracle : σ → Bool) (launch : σ → Bool × σ)
    (n : Int) (h : 0 < n) (s : σ) (ho : oracle s = true)
    (hl : (launch s).1 = true) (hc : oracle (launch s).2 = false) :
    process_job oracle launch n s = ⟨true, n - 1, 1, [n, n - 1]⟩ := by
  rw [process_job]; simp [h, ho, hl, hc]

/-- Unfolding `process_job` when the attempt does not settle the job. -/
theorem process_job_retry {σ : Type} (oracle : σ → Bool) (launch : σ → Bool × σ)
    (n : Int) (h : 0 < n) (s : σ) (ho : oracle s = true)
    (hf : ¬ ((launch s).1 = true ∧ oracle (launch s).2 = false)) :
    process_job oracle launch n s =
      { succeeded := (process_job oracle launch (n - 1) (launch s).2).succeeded,
        remaining := (process_job oracle launch (n - 1) (launch s).2).remaining,
        invocations := (process_job oracle launch (n - 1) (launch s).2).invocations + 1,
        trace := n :: (process_job oracle launch (n - 1) (launch s).2).trace } := by
  rw [process_job]; simp [h, ho]
  intro h1 h2; exact absurd ⟨h1, h2⟩ hf

/-- With an oracle that never reports complete and an executor that never
exits zero, the loop runs the executor once per budgeted try and fails. -/
theorem process_job_allfail {σ : Type} (oracle : σ → Bool) (launch : σ → Bool × σ)
    (hO : ∀ t, oracle t = true) (hL : ∀ t, (launch t).1 = false) :
    ∀ (k : Nat) (n : Int), n.toNat = k → ∀ s : σ,
      (process_job oracle launch n s).succeeded = false ∧
      (process_job oracle launch n s).invocations = n.toNat := by
  intro k
  induction k with
  | zero =>
    intro n hk s
    have h : ¬ 0 < n := by omega
    rw [process_job_nonpos oracle launch n h s]
    simp [hk]
  | succ k ih =>
    intro n hk s
    have h : 0 < n := by omega
    have hstep := process_job_retry oracle launch n h s (hO s)
      (by simp [hL s])
    have hk2 : (n - 1).toNat = k := by omega
    have hrec := ih (n - 1) hk2 (launch s).2
    rw [hstep]
    refine ⟨hrec.1, ?_⟩
    simp [hrec.2]
    omega

/-- C1: with `tries = 3`, an executor that always reports failure and an
oracle that always reports not complete, `process_job` invokes the
executor exactly 3 times and returns failure (EXHAUSTED). -/
theorem retry_exhausts_three_tries {σ : Type} (oracle : σ → Bool) (launch : σ → Bool × σ)
    (hO : ∀ t, oracle t = true) (hL : ∀ t, (launch t).1 = false) (s : σ) :
    (process_job oracle launch 3 s).invocations = 3 ∧
    (process_job oracle launch 3 s).succeeded = false := by
  have h := process_job_allfail oracle launch hO hL 3 3 rfl s
  exact ⟨h.2, h.1⟩

/-- C1 witness: a concrete always-failing world with 3 tries. -/
theorem retry_exhausts_three_tries_witness :
    (process_job (fun _ : Unit => true) (fun _ => (false, ())) 3 ()).invocations = 3 ∧
    (process_job (fun _ : Unit => true) (fun _ => (false, ())) 3 ()).succeeded = false :=
  retry_exhausts_three_tries _ _ (fun _ => rfl) (fun _ => rfl) ()

/-- C2 counterexample: with a zero retry budget the loop body never runs, so
a job whose oracle already reports complete is still returned as failed;
the claim as stated (success for every such job) is false. -/
theorem skip_requires_budget_counterexample :
    (process_job (fun _ : Unit => false) (fun _ => (false, ())) 0 ()).succeeded = false ∧
    (process_job (fun _ : Unit => false) (fun _ => (false, ())) 0 ()).invocations = 0 := by
  rw [process_job_nonpos _ _ 0 (by omega) ()]
  exact ⟨rfl, rfl⟩

/-- C2 (amended): when the retry budget is positive and the oracle reports
complete before any attempt, `process_job` returns success without ever
invoking the executor. -/
theorem skip_when_complete {σ : Type} (oracle : σ → Bool) (launch : σ → Bool × σ)
    (n : Int) (hn : 1 ≤ n) (s : σ) (hc : oracle s = false) :
    (process_job oracle launch n s).succeeded = true ∧
    (process_job oracle launch n s).invocations = 0 := by
  rw [process_job_skip oracle launch n (by omega) s hc]
  exact ⟨rfl, rfl⟩

/-- C2 witness: a concrete already-complete world with one try. -/
theorem skip_when_complete_witness :
    (process_job (fun _ : Unit => false) (fun _ => (false, ())) 1 ()).succeeded = true ∧
    (process_job (fun _ : Unit => false) (fun _ => (false, ())) 1 ()).invocations = 0 :=
  skip_when_complete _ _ 1 (by omega) () rfl

/-- At least one executor invocation happens when the loop enters with a
positive budget and the oracle reports not complete. -/
theorem process_job_invocations_pos {σ : Type} (oracle : σ → Bool) (launch : σ → Bool × σ)
    (n : Int) (h : 0 < n) (s : σ) (ho : oracle s = true) :
    1 ≤ (process_job oracle launch n s).invocations := by
  by_cases hdone : (launch s).1 = true ∧ oracle (launch s).2 = false
  · rw [process_job_done oracle launch n h s ho hdone.1 hdone.2]
  · rw [process_job_retry oracle launch n h s ho hdone]
    simp

/-- C3: when an attempt exits zero but the oracle still reports not
complete and at least one more try remains, the controller retries — the
executor is invoked a second time rather than the job being declared
successful on exit code alone. -/
theorem exit_code_does_not_decide {σ : Type} (oracle : σ → Bool) (launch : σ → Bool × σ)
    (n : Int) (hn : 2 ≤ n) (s : σ) (ho : oracle s = true)
    (hl : (launch s).1 = true) (hc : oracle (launch s).2 = true) :
    2 ≤ (process_job oracle launch n s).invocations := by
  rw [process_job_retry oracle launch n (by omega) s ho (by simp [hl, hc])]
  have h1 := process_job_invocations_pos oracle launch (n - 1) (by omega) (launch s).2 hc
  change 2 ≤ (process_job oracle launch (n - 1) (launch s).2).invocations + 1
  omega

/-- C3 witness: two tries, an executor that always exits zero, an oracle
that never reports complete. -/
theorem exit_code_does_not_decide_witness :
    2 ≤ (process_job (fun _ : Unit => true) (fun _ => (true, ())) 2 ()).invocations :=
  exit_code_does_not_decide _ _ 2 (by omega) () rfl rfl rfl

/-- The retry counter's trace starts at the initial value, never
increases, and stays non-negative when the initial value is. -/
theorem process_job_trace_spec {σ : Type} (oracle : σ → Bool) (launch : σ → Bool × σ) :
    ∀ (k : Nat) (n : Int), n.toNat = k → ∀ s : σ,
      (process_job oracle launch n s).trace.head? = some n ∧
      List.Chain' (fun a b => b ≤ a) (process_job oracle launch n s).trace ∧
      (0 ≤ n → ∀ x ∈ (process_job oracle launch n s).trace, 0 ≤ x) := by
  intro k
  induction k with
  | zero =>
    intro n hk s
    rw [process_job_nonpos oracle launch n (by omega) s]
    refine ⟨rfl, by simp, ?_⟩
    intro hn x hx
    simp at hx
    omega
  | succ k ih =>
    intro n hk s
    have h : 0 < n := by omega
    by_cases hc : oracle s = false
    · rw [process_job_skip oracle launch n h s hc]
      refine ⟨rfl, by simp, ?_⟩
      intro hn x hx
      simp at hx
      omega
    · have ho : oracle s = true := by simpa using hc
      by_cases hdone : (launch s).1 = true ∧ oracle (launch s).2 = false
      · rw [process_job_done oracle launch n h s ho hdone.1 hdone.2]
        refine ⟨rfl, List.chain'_pair.mpr (by omega), ?_⟩
        intro hn x hx
        simp at hx
        omega
      · rw [process_job_retry oracle launch n h s ho hdone]
        have hrec := ih (n - 1) (by omega) (launch s).2
        refine ⟨rfl, ?_, ?_⟩
        · simp only []
          rw [List.chain'_cons']
          refine ⟨?_, hrec.2.1⟩
          intro y hy
          rw [hrec.1] at hy
          simp at hy
          omega
        · intro hn x hx
          simp at hx
          rcases hx with hx | hx
          · omega
          · exact hrec.2.2 (by omega) x hx

/-- C6: for a non-negative initial retry budget, the successive values of
`remaining_tries` are monotonically non-increasing and never negative. -/
theorem remaining_tries_monotone {σ : Type} (oracle : σ → Bool) (launch : σ → Bool × σ)
    (n : Int) (hn : 0 ≤ n) (s : σ) :
    (process_job oracle launch n s).trace.head? = some n ∧
    List.Chain' (fun a b => b ≤ a) (process_job oracle launch n s).trace ∧
    ∀ x ∈ (process_job oracle launch n s).trace, 0 ≤ x := by
  have h := process_job_trace_spec oracle launch n.toNat n rfl s
  exact ⟨h.1, h.2.1, h.2.2 hn⟩

/-- C6 witness: the trace of a concrete two-try run. -/
theorem remaining_tries_monotone_witness :
    (process_job (fun _ : Unit => true) (fun _ => (false, ())) 2 ()).trace.head? = some 2 ∧
    List.Chain' (fun a b => b ≤ a)
      (process_job (fun _ : Unit => true) (fun _ => (false, ())) 2 ()).trace :=
  ⟨(remaining_tries_monotone _ _ 2 (by omega) ()).1,
   (remaining_tries_monotone _ _ 2 (by omega) ()).2.1⟩

theorem pySubscript_dict_some {kvs : List (String × PyVal)} {k : String} {w : PyVal}
    (h : kvs.lookup k = some w) : pySubscript (.dict kvs) k = .ok w := by
  simp [pySubscript, h]

theorem check_records_ok_false (rs : List PyVal)
    (h : ∀ r ∈ rs, ∃ rkvs, r = .dict rkvs ∧
      statusFailed ((rkvs.lookup "status").getD .none) = false) :
    check_records rs = .ok false := by
  induction rs with
  | nil => rfl
  | cons r rest ih =>
    obtain ⟨rkvs, rfl, hst⟩ := h r (by simp)
    simp [check_records, pyGet, pyGetD, hst]
    exact ih (fun r hr => h r (by simp [hr]))

theorem check_records_ok_true (rs : List PyVal)
    (hall : ∀ r ∈ rs, ∃ rkvs, r = .dict rkvs)
    (hfail : ∃ r ∈ rs, ∃ rkvs, r = .dict rkvs ∧
      statusFailed ((rkvs.lookup "status").getD .none) = true) :
    check_records rs = .ok true := by
  induction rs with
  | nil => simp at hfail
  | cons r rest ih =>
    obtain ⟨rkvs, rfl⟩ := hall r (by simp)
    by_cases hst : statusFailed ((rkvs.lookup "status").getD .none) = true
    · simp [check_records, pyGet, pyGetD, hst]
    · simp only [Bool.not_eq_true] at hst
      simp [check_records, pyGet, pyGetD, hst]
      obtain ⟨r2, hr2, rkvs2, he2, hst2⟩ := hfail
      rcases List.mem_cons.mp hr2 with hr2 | hr2
      · subst hr2
        injection he2 with he2
        subst he2
        rw [hst2] at hst
        cases hst
      · exact ih (fun x hx => hall x (by simp [hx])) ⟨r2, hr2, rkvs2, he2, hst2⟩

/-- C10: a parsed result whose progress pair satisfies
`completed >= total` — including the vacuous `[0, 0]` — with the
`records` key absent or holding no record with a failure status, is
judged complete (no rerun). -/
theorem oracle_complete (kvs ckvs : List (String × PyVal)) (a b : Int)
    (h1 : kvs.lookup "_checkpoint" = some (.dict ckvs))
    (h2 : ckvs.lookup "progress" = some (.list [.int a, .int b]))
    (hab : b ≤ a)
    (hrec : ckvs.lookup "records" = Option.none ∨
      ∃ rs, ckvs.lookup "records" = some (.list rs) ∧
        ∀ r ∈ rs, ∃ rkvs, r = .dict rkvs ∧
          statusFailed ((rkvs.lookup "status").getD .none) = false) :
    needs_rerun (.parsed (.dict kvs)) = .ok false := by
  have e1 := pySubscript_dict_some h1
  have e2 := pySubscript_dict_some h2
  have hlt : ¬ a < b := by omega
  rcases hrec with hrec | ⟨rs, hrec, hok⟩
  · simp [needs_rerun, e1, e2, pyLen, pyIndex, pyLt, hlt, pyGetD, hrec, pyIter, check_records]
  · simp [needs_rerun, e1, e2, pyLen, pyIndex, pyLt, hlt, pyGetD, hrec, pyIter]
    exact check_records_ok_false rs hok

/-- C5: a parsed result whose checkpoint holds a record with a failure
status needs a rerun, even when `completed >= total`. -/
theorem failed_record_forces_rerun (kvs ckvs : List (String × PyVal)) (a b : Int)
    (rs : List PyVal)
    (h1 : kvs.lookup "_checkpoint" = some (.dict ckvs))
    (h2 : ckvs.lookup "progress" = some (.list [.int a, .int b]))
    (h3 : ckvs.lookup "records" = some (.list rs))
    (hall : ∀ r ∈ rs, ∃ rkvs, r = .dict rkvs)
    (hfail : ∃ r ∈ rs, ∃ rkvs, r = .dict rkvs ∧
      statusFailed ((rkvs.lookup "status").getD .none) = true) :
    needs_rerun (.parsed (.dict kvs)) = .ok true := by
  have e1 := pySubscript_dict_some h1
  have e2 := pySubscript_dict_some h2
  by_cases hab : a < b
  · simp [needs_rerun, e1, e2, pyLen, pyIndex, pyLt, hab]
  · simp [needs_rerun, e1, e2, pyLen, pyIndex, pyLt, hab, pyGetD, h3, pyIter]
    exact check_records_ok_true rs hall hfail

/-- C5 witness: one `Failed` record with progress `[1, 1]`. -/
theorem failed_record_forces_rerun_witness :
    needs_rerun (.parsed (.dict
      [("_checkpoint", .dict
        [("progress", .list [.int 1, .int 1]),
         ("records", .list [.dict [("status", .str "Failed")]])])])) = .ok true :=
  failed_record_forces_rerun _ _ 1 1 _ rfl rfl rfl
    (by intro r hr; simp at hr; exact ⟨_, hr⟩)
    ⟨.dict [("status", .str "Failed")], by simp, _, rfl, rfl⟩

/-- C4 counterexample: a parsed result whose `progress` value is a bare
number (a malformed progress pair) makes `needs_rerun` raise an uncaught
`TypeError` from `len(progress)` instead of returning "needs rerun". -/
theorem oracle_conservative_counterexample :
    needs_rerun (.parsed (.dict [("_checkpoint", .dict [("progress", .int 5)])]))
      = .error .typeError ∧
    needs_rerun (.parsed (.dict [("_checkpoint", .dict [("progress", .int 5)])]))
      ≠ .ok true :=
  ⟨rfl, fun h => Except.noConfusion h⟩

/-- C4 (amended): a missing result file, unparsable content, a missing
`_checkpoint` or `progress` key, and a progress list with fewer than two
elements all yield "needs rerun" without error; a progress value that
does not support `len` instead raises an uncaught `TypeError`. -/
theorem oracle_conservative :
    needs_rerun .missing = .ok true ∧
    needs_rerun .unparsable = .ok true ∧
    (∀ kvs : List (String × PyVal), kvs.lookup "_checkpoint" = Option.none →
      needs_rerun (.parsed (.dict kvs)) = .ok true) ∧
    (∀ (kvs ckvs : List (String × PyVal)), kvs.lookup "_checkpoint" = some (.dict ckvs) →
      ckvs.lookup "progress" = Option.none →
      needs_rerun (.parsed (.dict kvs)) = .ok true) ∧
    (∀ (kvs ckvs : List (String × PyVal)) (ps : List PyVal),
      kvs.lookup "_checkpoint" = some (.dict ckvs) →
      ckvs.lookup "progress" = some (.list ps) → ps.length < 2 →
      needs_rerun (.parsed (.dict kvs)) = .ok true) := by
  refine ⟨rfl, rfl, ?_, ?_, ?_⟩
  · intro kvs h
    simp [needs_rerun, pySubscript, h]
  · intro kvs ckvs h1 h2
    simp [needs_rerun, pySubscript, h1, h2]
  · intro kvs ckvs ps h1 h2 hlen
    have e1 := pySubscript_dict_some h1
    have e2 := pySubscript_dict_some h2
    simp [needs_rerun, e1, e2, pyLen, hlen]

/-- C4 witness: an empty parsed dict (no `_checkpoint` key) needs rerun. -/
theorem oracle_conservative_witness :
    needs_rerun (.parsed (.dict [])) = .ok true :=
  oracle_conservative.2.2.1 [] rfl

/-- C10 witness: the vacuous progress pair `[0, 0]` with no `records` key
counts as complete. -/
theorem oracle_complete_witness :
    needs_rerun (.parsed (.dict
      [("_checkpoint", .dict [("progress", .list [.int 0, .int 0])])])) = .ok false :=
  oracle_complete _ _ 0 0 rfl rfl (by omega) (Or.inl rfl)

/-- C7: every job descriptor's route id is the last underscore token of
the route filename stem, zero-filled to 3 characters when the benchmark
is case-insensitively bench2drive and to 2 otherwise; concretely,
`route_7.xml` gives `"007"` under benchmark `Bench2Drive` and `"07"`
under benchmark `longest6`. -/
theorem route_id_padding :
    (∀ (cfg : Config) (entries : List String) (job : JobDesc),
        job ∈ build_job_queue cfg entries →
        job.route_id =
          zfill ((split_on_uscore (path_stem job.route)).getLastD "")
            (if str_lower cfg.benchmark == "bench2drive" then 3 else 2)) ∧
    (build_job_queue (demo_config "Bench2Drive" 1) ["route_7.xml"]).map JobDesc.route_id
      = ["007"] ∧
    (build_job_queue (demo_config "longest6" 1) ["route_7.xml"]).map JobDesc.route_id
      = ["07"] := by
  have hroutes : discover_routes ["route_7.xml"] = ["route_7.xml"] := by
    unfold discover_routes
    rw [show List.filter (fun n => path_suffix n == ".xml") ["route_7.xml"]
        = ["route_7.xml"] from rfl]
    exact List.mergeSort_singleton _
  refine ⟨?_, ?_, ?_⟩
  · intro cfg entries job hmem
    simp only [build_job_queue, List.mem_flatten, List.mem_map] at hmem
    obtain ⟨l, ⟨seed, hseed, rfl⟩, hjob⟩ := hmem
    obtain ⟨route, hroute, rfl⟩ := List.mem_map.mp hjob
    simp [make_job]
  · simp [build_job_queue, hroutes, demo_config, make_job]
    rfl
  · simp [build_job_queue, hroutes, demo_config, make_job]
    rfl

/-- C7 witness: the queue for benchmark `Bench2Drive` over the single
route file `route_7.xml`. -/
theorem route_id_padding_witness :
    demo_job ∈ build_job_queue (demo_config "Bench2Drive" 1) ["route_7.xml"] ∧
    demo_job.route_id =
      zfill ((split_on_uscore (path_stem demo_job.route)).getLastD "")
        (if str_lower (demo_config "Bench2Drive" 1).benchmark == "bench2drive"
          then 3 else 2) := by
  have hroutes : discover_routes ["route_7.xml"] = ["route_7.xml"] := by
    unfold discover_routes
    rw [show List.filter (fun n => path_suffix n == ".xml") ["route_7.xml"]
        = ["route_7.xml"] from rfl]
    exact List.mergeSort_singleton _
  have hq : build_job_queue (demo_config "Bench2Drive" 1) ["route_7.xml"] = [demo_job] := by
    unfold build_job_queue
    rw [hroutes]
    rfl
  have hmem : demo_job ∈ build_job_queue (demo_config "Bench2Drive" 1) ["route_7.xml"] := by
    rw [hq]
    exact List.mem_singleton.mpr rfl
  exact ⟨hmem, route_id_padding.1 (demo_config "Bench2Drive" 1) ["route_7.xml"] _ hmem⟩

/-- C8: route discovery keeps only `.xml` entries and orders them
lexicographically by filename (`route_10.xml` before `route_2.xml`), and
any two listings of the same directory contents produce the same order. -/
theorem route_discovery_sorted :
    discover_routes ["route_10.xml", "route_2.xml", "route_1.xml"] =
      ["route_1.xml", "route_10.xml", "route_2.xml"] ∧
    ∀ l1 l2 : List String, l1.Perm l2 → discover_routes l1 = discover_routes l2 := by
  constructor
  · apply List.eq_of_perm_of_sorted (r := (· ≤ ·))
    · exact (List.mergeSort_perm _ _).trans (by decide)
    · exact List.sorted_mergeSort' _
    · simp [List.sorted_cons, String.le_iff_toList_le]
      decide
  · intro l1 l2 h
    unfold discover_routes
    apply List.eq_of_perm_of_sorted (r := (· ≤ ·))
    · exact (List.mergeSort_perm _ _).trans ((h.filter _).trans (List.mergeSort_perm _ _).symm)
    · exact List.sorted_mergeSort' _
    · exact List.sorted_mergeSort' _

/-- C8 witness: two listings of the same two files. -/
theorem route_discovery_sorted_witness :
    discover_routes ["route_2.xml", "route_1.xml"] =
      discover_routes ["route_1.xml", "route_2.xml"] :=
  route_discovery_sorted.2 _ _ (List.Perm.swap _ _ _)

/-- C9: configuration resolution succeeds exactly when the five required
paths (route directory, simulator root, repository root, agent entry
file, checkpoint) all exist; a missing one produces an error naming the
field and the path; on success the defaults 2000/2500/600/1 fill the
absent numeric fields. -/
theorem config_resolution (expand : String → String) (fsExists : String → Bool)
    (cfg : RawConfig) :
    ((∃ c, preprocess_config expand fsExists cfg = .ok c) ↔
      ∀ np ∈ required_paths (resolve_config expand cfg), fsExists np.2 = true) ∧
    ((∃ np ∈ required_paths (resolve_config expand cfg), fsExists np.2 = false) →
      ∃ name path, (name, path) ∈ required_paths (resolve_config expand cfg) ∧
        fsExists path = false ∧
        preprocess_config expand fsExists cfg = .error (name ++ " does not exist: " ++ path)) ∧
    (∀ c, preprocess_config expand fsExists cfg = .ok c →
      c = resolve_config expand cfg ∧
      (cfg.carla_port = Option.none → c.carla_port = 2000) ∧
      (cfg.carla_tm_port = Option.none → c.carla_tm_port = 2500) ∧
      (cfg.timeout = Option.none → c.timeout = 600) ∧
      (cfg.tries = Option.none → c.tries = 1)) := by
  cases hfind : (required_paths (resolve_config expand cfg)).find? (fun np => !fsExists np.2) with
  | none =>
    have hres : preprocess_config expand fsExists cfg = .ok (resolve_config expand cfg) := by
      simp only [preprocess_config]
      rw [hfind]
    have hall := List.find?_eq_none.mp hfind
    refine ⟨?_, ?_, ?_⟩
    · constructor
      · intro _ np hnp
        simpa using hall np hnp
      · intro _
        exact ⟨_, hres⟩
    · rintro ⟨np, hnp, hfalse⟩
      have := hall np hnp
      simp [hfalse] at this
    · intro c hc
      rw [hres] at hc
      injection hc with hc
      subst hc
      refine ⟨rfl, ?_, ?_, ?_, ?_⟩ <;>
        intro h <;> simp [resolve_config, h]
  | some np =>
    have hres : preprocess_config expand fsExists cfg
        = .error (np.1 ++ " does not exist: " ++ np.2) := by
      simp only [preprocess_config]
      rw [hfind]
    have hpred := List.find?_some hfind
    have hmem := List.mem_of_find?_eq_some hfind
    have hfalse : fsExists np.2 = false := by simpa using hpred
    refine ⟨?_, fun _ => ⟨np.1, np.2, hmem, hfalse, hres⟩, ?_⟩
    · constructor
      · rintro ⟨c, hc⟩
        rw [hres] at hc
        cases hc
      · intro hall
        have := hall np hmem
        rw [hfalse] at this
        cases this
    · intro c hc
      rw [hres] at hc
      cases hc

/-- C9 witness: with every path existing, a raw configuration with no
numeric fields resolves successfully and receives every default. -/
theorem config_resolution_witness :
    (resolve_config id demo_raw_config).carla_port = 2000 ∧
    (resolve_config id demo_raw_config).carla_tm_port = 2500 ∧
    (resolve_config id demo_raw_config).timeout = 600 ∧
    (resolve_config id demo_raw_config).tries = 1 := by
  have h := (config_resolution id (fun _ => true) demo_raw_config).2.2
    (resolve_config id demo_raw_config) (by rfl)
  exact ⟨h.2.1 rfl, h.2.2.1 rfl, h.2.2.2.1 rfl, h.2.2.2.2 rfl⟩

end SimlingoEval
